import Mathlib

/-!
Shallow embedding of the schema-to-SQL renderer in
src/ross-db/src/table/fields.rs (crate ross-db).

The Rust code renders an in-memory table description to a CREATE statement
by writing byte chunks into a caller-supplied sink (std::io::Write).  We
model a sink as a state type together with a write function that either
succeeds (returning the new state and a byte count, as Rust's write does)
or fails.  Every renderer below is a direct translation of the
corresponding Rust item; the one deliberate difference of the source is
kept: inside TableDefn::into_sql the per-field renders are unwrapped
(a panic on failure), which we model with a distinct outcome constructor.
-/

namespace Ross

/-- Result of one sink write or of a whole render: either a new sink state
together with the byte count the write reported, or a failure carrying the
sink state at the moment of failure (Rust keeps the borrowed sink alive, so
previously written bytes stay in it). -/
inductive WResult (σ ε : Type) where
  | ok (state : σ) (count : Nat)
  | err (state : σ) (e : ε)
deriving DecidableEq

/-- A byte sink: the state-passing model of std::io::Write restricted to the
single method the source uses, write, which returns the number of bytes
written or an error. -/
structure Writer (σ ε : Type) where
  write : σ → String → WResult σ ε

/-- Sequencing of writes in the success case; models the question-mark
operator threading of the Rust source. -/
def WResult.andThen {σ ε : Type} : WResult σ ε → (σ → Nat → WResult σ ε) → WResult σ ε
  | .ok s n, k => k s n
  | .err s e, _ => .err s e

/-- Outcome of the table render.  The constructor panicked models a Rust
panic raised by the unwrap calls inside the field loop of
TableDefn::into_sql; err models an error value returned to the caller via
the question-mark operator. -/
inductive TResult (σ ε : Type) where
  | ok (state : σ) (count : Nat)
  | err (state : σ) (e : ε)
  | panicked (state : σ) (e : ε)
deriving DecidableEq

/-- Column type model: enum Field of fields.rs. -/
inductive Field where
  | Char (max_length : Nat)
  | VarChar
  | Serial
  | BigInt
  | BigSerial
  | Text
  | Boolean
  | Bit (length : Nat)
deriving DecidableEq

/-- The data_type string computed by the match inside
impl IntoSql(Pg) for Field. -/
def Field.data_type : Field → String
  | .Char max_length => "CHAR(" ++ Nat.repr max_length ++ ")"
  | .VarChar => "VARCHAR"
  | .Text => "TEXT"
  | .Serial => "SERIAL"
  | .BigInt => "BIGINT"
  | .BigSerial => "BIGSERIAL"
  | .Boolean => "BOOLEAN"
  | .Bit length => "BIT(" ++ Nat.repr length ++ ")"

/-- fn into_sql of impl IntoSql(Pg) for Field: compute the data_type text
and write its bytes to the sink. -/
def Field.into_sql {σ ε : Type} (w : Writer σ ε) (f : Field) (s : σ) : WResult σ ε :=
  w.write s f.data_type

/-- struct CommonFieldOptions of fields.rs. -/
structure CommonFieldOptions where
  name : String
  primary_key : Bool
  unique : Bool
  null : Option Bool
deriving DecidableEq

/-- struct TableField of fields.rs. -/
structure TableField where
  options : CommonFieldOptions
  kind : Field
deriving DecidableEq

/-- fn into_sql of impl IntoSql(Pg) for TableField, with the running
total_bytes accumulator of the source expressed by summing the counts of
the successive writes; each question-mark becomes an andThen. -/
def TableField.into_sql {σ ε : Type} (w : Writer σ ε) (tf : TableField) (s : σ) : WResult σ ε :=
  (w.write s tf.options.name).andThen fun s n1 =>
  (w.write s " ").andThen fun s n2 =>
  (Field.into_sql w tf.kind s).andThen fun s n3 =>
  (w.write s " ").andThen fun s n4 =>
  (match tf.options.null with
    | some null_constraint =>
      let value := if null_constraint then "NULL" else "NOT NULL"
      (w.write s value).andThen fun s m1 =>
      (w.write s " ").andThen fun s m2 => .ok s (m1 + m2)
    | none => .ok s 0).andThen fun s n5 =>
  (if tf.options.primary_key then
      (w.write s "PRIMARY KEY").andThen fun s m1 =>
      (w.write s " ").andThen fun s m2 => .ok s (m1 + m2)
    else .ok s 0).andThen fun s n6 =>
  (if tf.options.unique then
      (w.write s "UNIQUE").andThen fun s m1 =>
      (w.write s " ").andThen fun s m2 => .ok s (m1 + m2)
    else .ok s 0).andThen fun s n7 =>
  .ok s (n1 + n2 + n3 + n4 + n5 + n6 + n7)

/-- enum TableKind of fields.rs. -/
inductive TableKind where
  | Global
  | Local
deriving DecidableEq

/-- The strum AsRefStr derive: as_ref yields the variant name. -/
def TableKind.as_ref : TableKind → String
  | .Global => "Global"
  | .Local => "Local"

/-- Rust str::to_uppercase, modelled as the per-character uppercase map;
this coincides with Rust on the ASCII variant names it is applied to. -/
def to_uppercase (s : String) : String :=
  ⟨s.data.map Char.toUpper⟩

/-- The blanket impl IntoSql(Pg) for T where T : AsRef(str): write the
uppercased textual form.  Instantiated at TableKind, the one type the
source uses it at. -/
def TableKind.into_sql {σ ε : Type} (w : Writer σ ε) (k : TableKind) (s : σ) : WResult σ ε :=
  w.write s (to_uppercase k.as_ref)

/-- struct CommonTableOptions of fields.rs. -/
structure CommonTableOptions where
  name : String
  if_not_exists : Bool
  kind : Option TableKind
deriving DecidableEq

/-- struct TableDefn of fields.rs. -/
structure TableDefn where
  fields : List TableField
  options : CommonTableOptions
deriving DecidableEq

/-- The for_each loop over enumerated fields inside TableDefn::into_sql.
Both the per-field render and the separator write are unwrapped in the
source, so a failing write panics (constructor panicked) instead of
returning an error.  The separator is written whenever the running index
differs from num_fields - 1. -/
def TableDefn.fields_loop {σ ε : Type} (w : Writer σ ε) (num_fields : Nat) :
    List TableField → Nat → σ → Nat → TResult σ ε
  | [], _, s, total_bytes => .ok s total_bytes
  | field :: rest, index, s, total_bytes =>
    match TableField.into_sql w field s with
    | .err s2 e => .panicked s2 e
    | .ok s2 n =>
      if index != num_fields - 1 then
        match w.write s2 ",\n\t" with
        | .err s3 e => .panicked s3 e
        | .ok s3 m => TableDefn.fields_loop w num_fields rest (index + 1) s3 (total_bytes + n + m)
      else
        TableDefn.fields_loop w num_fields rest (index + 1) s2 (total_bytes + n)

/-- fn into_sql of impl IntoSql(Pg) for TableDefn: the statement prefix
(CREATE, optional kind, name, optional IF NOT EXISTS, opening punctuation)
is written with question-mark propagation, then the field loop runs, then
the closing punctuation is written with question-mark propagation. -/
def TableDefn.into_sql {σ ε : Type} (w : Writer σ ε) (t : TableDefn) (s : σ) : TResult σ ε :=
  match
    (w.write s "CREATE ").andThen (fun s n1 =>
    (match t.options.kind with
      | some kind =>
        (TableKind.into_sql w kind s).andThen fun s m1 =>
        (w.write s " ").andThen fun s m2 => .ok s (m1 + m2)
      | none => .ok s 0).andThen fun s n2 =>
    (w.write s t.options.name).andThen fun s n3 =>
    (if t.options.if_not_exists then w.write s " IF NOT EXISTS" else .ok s 0).andThen fun s n4 =>
    (w.write s " (\n\t").andThen fun s n5 =>
    .ok s (n1 + n2 + n3 + n4 + n5))
  with
  | .err s e => .err s e
  | .ok s total_bytes =>
    match TableDefn.fields_loop w t.fields.length t.fields 0 s total_bytes with
    | .err s e => .err s e
    | .panicked s e => .panicked s e
    | .ok s total_bytes =>
      match w.write s "\n)" with
      | .err s e => .err s e
      | .ok s n => .ok s (total_bytes + n)

/-- The UTF-8 bytes of a string, as a list: what as_bytes hands to the sink
in Rust.  Unfolds to String.toUTF8 presented as a list. -/
def strBytes (t : String) : List UInt8 :=
  t.toUTF8.data.toList

/-- The in-memory sink of into_sql_str (a Vec of bytes) viewed at the byte
level: the state is the accumulated byte list, a write appends the UTF-8
bytes of the chunk and reports their number, and never fails. -/
def ByteWriter (ε : Type) : Writer (List UInt8) ε :=
  ⟨fun s t => .ok (s ++ strBytes t) (strBytes t).length⟩

/-- The same in-memory sink viewed at the text level: since every chunk the
renderers write is the byte image of a string (the content of claim C9),
the accumulated bytes are the UTF-8 image of the accumulated text, and we
may carry the text itself as the state. -/
def StringWriter (ε : Type) : Writer String ε :=
  ⟨fun s t => .ok (s ++ t) t.utf8ByteSize⟩

/-- An instrumented in-memory sink that records the individual chunks
handed to write, in order, instead of concatenating them; used to reason
about which clauses the renderers emit. -/
def ChunkWriter (ε : Type) : Writer (List String) ε :=
  ⟨fun s t => .ok (s ++ [t]) t.utf8ByteSize⟩

/-- A sink that accepts its first k writes and fails on every later one,
modelling an io::Write device with bounded capacity; the state counts the
accepted writes. -/
def FailAfter (k : Nat) : Writer Nat Unit :=
  ⟨fun s t => if s < k then .ok (s + 1) t.utf8ByteSize else .err s ()⟩

/-- The default trait method into_sql_str at type Field: render into the
fresh in-memory sink and hand back the accumulated text with the reported
byte count.  The none branch corresponds to the error case of the Rust
method (sink failure or invalid UTF-8), which the in-memory sink never
takes. -/
def Field.into_sql_str (f : Field) : Option (String × Nat) :=
  match Field.into_sql (StringWriter Unit) f "" with
  | .ok s n => some (s, n)
  | .err _ _ => none

/-- The default trait method into_sql_str at type TableField. -/
def TableField.into_sql_str (tf : TableField) : Option (String × Nat) :=
  match TableField.into_sql (StringWriter Unit) tf "" with
  | .ok s n => some (s, n)
  | .err _ _ => none

/-- The default trait method into_sql_str at type TableDefn.  A panic
escapes the method rather than being returned, so only the ok constructor
produces a value; both failure constructors map to none. -/
def TableDefn.into_sql_str (t : TableDefn) : Option (String × Nat) :=
  match TableDefn.into_sql (StringWriter Unit) t "" with
  | .ok s n => some (s, n)
  | .err _ _ => none
  | .panicked _ _ => none

/-- Closed form of the text a field render produces, used to state and
prove theorems about TableField.into_sql; each clause carries its trailing
space as a separate literal, mirroring the separate write calls. -/
def TableField.sql_text (tf : TableField) : String :=
  tf.options.name ++ " " ++ tf.kind.data_type ++ " " ++
  (match tf.options.null with
    | some b => (if b then "NULL" else "NOT NULL") ++ " "
    | none => "") ++
  (if tf.options.primary_key then "PRIMARY KEY" ++ " " else "") ++
  (if tf.options.unique then "UNIQUE" ++ " " else "")

/-- Closed form of the chunk sequence a field render hands to the sink,
one element per write call, in order. -/
def TableField.chunk_list (tf : TableField) : List String :=
  [tf.options.name, " ", tf.kind.data_type, " "] ++
  (match tf.options.null with
    | some b => [if b then "NULL" else "NOT NULL", " "]
    | none => []) ++
  (if tf.options.primary_key then ["PRIMARY KEY", " "] else []) ++
  (if tf.options.unique then ["UNIQUE", " "] else [])

/-- Closed form of the joined field clauses of a table body: clause texts
separated by comma-newline-tab, with no separator after the last. -/
def join_fields : List TableField → String
  | [] => ""
  | [tf] => tf.sql_text
  | tf :: rest => tf.sql_text ++ ",\n\t" ++ join_fields rest

/-- Chunk-level counterpart of join_fields. -/
def fields_chunks : List TableField → List String
  | [] => []
  | [tf] => tf.chunk_list
  | tf :: rest => tf.chunk_list ++ [",\n\t"] ++ fields_chunks rest

/-- Closed form of the text a table render produces. -/
def TableDefn.sql_text (t : TableDefn) : String :=
  "CREATE " ++
  (match t.options.kind with
    | some k => to_uppercase k.as_ref ++ " "
    | none => "") ++
  t.options.name ++
  (if t.options.if_not_exists then " IF NOT EXISTS" else "") ++
  " (\n\t" ++ join_fields t.fields ++ "\n)"

/-- Closed form of the chunk sequence a table render hands to the sink. -/
def TableDefn.chunk_list (t : TableDefn) : List String :=
  "CREATE " :: ((match t.options.kind with
    | some k => [to_uppercase k.as_ref, " "]
    | none => []) ++
  [t.options.name] ++
  (if t.options.if_not_exists then [" IF NOT EXISTS"] else []) ++
  [" (\n\t"] ++ fields_chunks t.fields ++ ["\n)"])

/-- The chunks a field render actually emits, observed through the
instrumented sink. -/
def TableField.emitted_chunks (tf : TableField) : List String :=
  match TableField.into_sql (ChunkWriter Unit) tf [] with
  | .ok s _ => s
  | .err _ _ => []

/-- The chunks a table render actually emits, observed through the
instrumented sink. -/
def TableDefn.emitted_chunks (t : TableDefn) : List String :=
  match TableDefn.into_sql (ChunkWriter Unit) t [] with
  | .ok s _ => s
  | .err _ _ => []
  | .panicked _ _ => []

/-- The posts table of the test fixture tests::table in fields.rs. -/
def posts : TableDefn :=
  { options := { name := "posts", if_not_exists := true, kind := some .Global },
    fields :=
      [ { options := { name := "id", primary_key := true, unique := false, null := none },
          kind := .Serial },
        { options := { name := "title", primary_key := false, unique := false, null := some false },
          kind := .Char 10 },
        { options := { name := "body", primary_key := false, unique := false, null := some false },
          kind := .Text },
        { options := { name := "published", primary_key := false, unique := false, null := some false },
          kind := .Boolean } ] }

/-- A minimal one-field table used to exercise the failure path of the
field loop: rendering it writes the prefix in three chunks and reaches the
first field clause at the fourth write. -/
def t1 : TableDefn :=
  { options := { name := "t", if_not_exists := false, kind := none },
    fields :=
      [ { options := { name := "a", primary_key := false, unique := false, null := none },
          kind := .Boolean } ] }

/-- A table with an empty field sequence. -/
def no_fields_table : TableDefn :=
  { options := { name := "bare", if_not_exists := false, kind := none }, fields := [] }

/-- The title field of the posts fixture, as a standalone descriptor. -/
def title_field : TableField :=
  { options := { name := "title", primary_key := false, unique := false, null := some false },
    kind := .Char 10 }

/-!
Helper lemmas: UTF-8 byte accounting and closed forms of the renderers
over the three concrete sinks.
-/

theorem utf8ByteSize_go_append (l1 l2 : List Char) :
    String.utf8ByteSize.go (l1 ++ l2) = String.utf8ByteSize.go l1 + String.utf8ByteSize.go l2 := by
  induction l1 with
  | nil => simp [String.utf8ByteSize.go]
  | cons c cs ih => simp [String.utf8ByteSize.go, ih]; omega

theorem utf8ByteSize_append (a b : String) :
    (a ++ b).utf8ByteSize = a.utf8ByteSize + b.utf8ByteSize := by
  obtain ⟨la⟩ := a
  obtain ⟨lb⟩ := b
  show String.utf8ByteSize.go (la ++ lb) = _
  rw [utf8ByteSize_go_append]
  rfl

theorem utf8ByteSize_nil : ("" : String).utf8ByteSize = 0 := rfl

theorem strBytes_eq (a : String) : strBytes a = a.data.flatMap String.utf8EncodeChar := rfl

theorem strBytes_append (a b : String) : strBytes (a ++ b) = strBytes a ++ strBytes b := by
  simp [strBytes_eq]

theorem strBytes_nil : strBytes "" = [] := rfl

theorem strBytes_length (a : String) : (strBytes a).length = a.utf8ByteSize := by
  obtain ⟨la⟩ := a
  rw [strBytes_eq]
  show _ = String.utf8ByteSize.go la
  induction la with
  | nil => rfl
  | cons c cs ih => simp [String.utf8ByteSize.go, List.flatMap_cons, ih]; omega

theorem field_into_sql_string {ε : Type} (f : Field) (s : String) :
    Field.into_sql (StringWriter ε) f s = .ok (s ++ f.data_type) f.data_type.utf8ByteSize := rfl

theorem field_into_sql_chunks {ε : Type} (f : Field) (c : List String) :
    Field.into_sql (ChunkWriter ε) f c = .ok (c ++ [f.data_type]) f.data_type.utf8ByteSize := rfl

theorem field_into_sql_bytes {ε : Type} (f : Field) (bs : List UInt8) :
    Field.into_sql (ByteWriter ε) f bs =
      .ok (bs ++ strBytes f.data_type) f.data_type.utf8ByteSize := by
  simp [Field.into_sql, ByteWriter, strBytes_length]

theorem tableField_into_sql_string {ε : Type} (tf : TableField) (s : String) :
    TableField.into_sql (StringWriter ε) tf s = .ok (s ++ tf.sql_text) tf.sql_text.utf8ByteSize := by
  obtain ⟨⟨name, pk, uq, nl⟩, kind⟩ := tf
  rcases nl with _ | b
  · cases pk <;> cases uq <;>
      simp [TableField.into_sql, Field.into_sql, StringWriter, WResult.andThen, TableField.sql_text,
        utf8ByteSize_append, utf8ByteSize_nil, String.append_assoc, -String.reduceAppend] <;> omega
  · cases b <;> cases pk <;> cases uq <;>
      simp [TableField.into_sql, Field.into_sql, StringWriter, WResult.andThen, TableField.sql_text,
        utf8ByteSize_append, utf8ByteSize_nil, String.append_assoc, -String.reduceAppend] <;> omega

theorem tableField_into_sql_chunks {ε : Type} (tf : TableField) (c : List String) :
    TableField.into_sql (ChunkWriter ε) tf c =
      .ok (c ++ tf.chunk_list) tf.sql_text.utf8ByteSize := by
  obtain ⟨⟨name, pk, uq, nl⟩, kind⟩ := tf
  rcases nl with _ | b
  · cases pk <;> cases uq <;>
      simp [TableField.into_sql, Field.into_sql, ChunkWriter, WResult.andThen,
        TableField.sql_text, TableField.chunk_list,
        utf8ByteSize_append, utf8ByteSize_nil, String.append_assoc, -String.reduceAppend] <;> omega
  · cases b <;> cases pk <;> cases uq <;>
      simp [TableField.into_sql, Field.into_sql, ChunkWriter, WResult.andThen,
        TableField.sql_text, TableField.chunk_list,
        utf8ByteSize_append, utf8ByteSize_nil, String.append_assoc, -String.reduceAppend] <;> omega

theorem tableField_into_sql_bytes {ε : Type} (tf : TableField) (bs : List UInt8) :
    TableField.into_sql (ByteWriter ε) tf bs =
      .ok (bs ++ strBytes tf.sql_text) tf.sql_text.utf8ByteSize := by
  obtain ⟨⟨name, pk, uq, nl⟩, kind⟩ := tf
  rcases nl with _ | b
  · cases pk <;> cases uq <;>
      simp [TableField.into_sql, Field.into_sql, ByteWriter, WResult.andThen, TableField.sql_text,
        utf8ByteSize_append, utf8ByteSize_nil, strBytes_append, strBytes_nil, strBytes_length,
        String.append_assoc, -String.reduceAppend] <;> omega
  · cases b <;> cases pk <;> cases uq <;>
      simp [TableField.into_sql, Field.into_sql, ByteWriter, WResult.andThen, TableField.sql_text,
        utf8ByteSize_append, utf8ByteSize_nil, strBytes_append, strBytes_nil, strBytes_length,
        String.append_assoc, -String.reduceAppend] <;> omega


theorem stringWriter_write {ε : Type} (s t : String) :
    (StringWriter ε).write s t = .ok (s ++ t) t.utf8ByteSize := rfl

theorem chunkWriter_write {ε : Type} (c : List String) (t : String) :
    (ChunkWriter ε).write c t = .ok (c ++ [t]) t.utf8ByteSize := rfl

theorem byteWriter_write {ε : Type} (bs : List UInt8) (t : String) :
    (ByteWriter ε).write bs t = .ok (bs ++ strBytes t) t.utf8ByteSize := by
  simp [ByteWriter, strBytes_length]

theorem fields_loop_string {ε : Type} (N : Nat) (l : List TableField) :
    ∀ (i : Nat), i + l.length = N → ∀ (s : String) (acc : Nat),
    TableDefn.fields_loop (StringWriter ε) N l i s acc =
      .ok (s ++ join_fields l) (acc + (join_fields l).utf8ByteSize) := by
  induction l with
  | nil =>
    intro i h s acc
    simp [TableDefn.fields_loop, join_fields, utf8ByteSize_nil]
  | cons tf rest ih =>
    intro i h s acc
    rw [TableDefn.fields_loop, tableField_into_sql_string]
    dsimp only
    cases rest with
    | nil =>
      have hi : (i != N - 1) = false := by
        simp only [bne_eq_false_iff_eq]
        simp at h
        omega
      rw [hi]
      dsimp only [TableDefn.fields_loop]
      simp [join_fields]
    | cons tf2 rest2 =>
      have hne : (i != N - 1) = true := by
        simp only [bne_iff_ne, ne_eq]
        simp at h
        omega
      rw [hne, if_pos rfl, stringWriter_write]
      dsimp only
      rw [ih (i + 1) (by simp at h ⊢; omega)]
      simp [join_fields, utf8ByteSize_append, String.append_assoc, -String.reduceAppend]
      omega

theorem fields_loop_chunks {ε : Type} (N : Nat) (l : List TableField) :
    ∀ (i : Nat), i + l.length = N → ∀ (c : List String) (acc : Nat),
    TableDefn.fields_loop (ChunkWriter ε) N l i c acc =
      .ok (c ++ fields_chunks l) (acc + (join_fields l).utf8ByteSize) := by
  induction l with
  | nil =>
    intro i h c acc
    simp [TableDefn.fields_loop, join_fields, fields_chunks, utf8ByteSize_nil]
  | cons tf rest ih =>
    intro i h c acc
    rw [TableDefn.fields_loop, tableField_into_sql_chunks]
    dsimp only
    cases rest with
    | nil =>
      have hi : (i != N - 1) = false := by
        simp only [bne_eq_false_iff_eq]
        simp at h
        omega
      rw [hi]
      dsimp only [TableDefn.fields_loop]
      simp [join_fields, fields_chunks]
    | cons tf2 rest2 =>
      have hne : (i != N - 1) = true := by
        simp only [bne_iff_ne, ne_eq]
        simp at h
        omega
      rw [hne, if_pos rfl, chunkWriter_write]
      dsimp only
      rw [ih (i + 1) (by simp at h ⊢; omega)]
      simp [join_fields, fields_chunks, utf8ByteSize_append, List.append_assoc,
        -String.reduceAppend]
      omega

theorem fields_loop_bytes {ε : Type} (N : Nat) (l : List TableField) :
    ∀ (i : Nat), i + l.length = N → ∀ (bs : List UInt8) (acc : Nat),
    TableDefn.fields_loop (ByteWriter ε) N l i bs acc =
      .ok (bs ++ strBytes (join_fields l)) (acc + (join_fields l).utf8ByteSize) := by
  induction l with
  | nil =>
    intro i h bs acc
    simp [TableDefn.fields_loop, join_fields, strBytes_nil, utf8ByteSize_nil]
  | cons tf rest ih =>
    intro i h bs acc
    rw [TableDefn.fields_loop, tableField_into_sql_bytes]
    dsimp only
    cases rest with
    | nil =>
      have hi : (i != N - 1) = false := by
        simp only [bne_eq_false_iff_eq]
        simp at h
        omega
      rw [hi]
      dsimp only [TableDefn.fields_loop]
      simp [join_fields]
    | cons tf2 rest2 =>
      have hne : (i != N - 1) = true := by
        simp only [bne_iff_ne, ne_eq]
        simp at h
        omega
      rw [hne, if_pos rfl, byteWriter_write]
      dsimp only
      rw [ih (i + 1) (by simp at h ⊢; omega)]
      simp [join_fields, utf8ByteSize_append, strBytes_append, List.append_assoc,
        -String.reduceAppend]
      omega

theorem tableDefn_into_sql_string {ε : Type} (t : TableDefn) (s : String) :
    TableDefn.into_sql (StringWriter ε) t s = .ok (s ++ t.sql_text) t.sql_text.utf8ByteSize := by
  obtain ⟨fields, name, inx, kind⟩ := t
  rw [TableDefn.into_sql]
  rcases kind with _ | k <;> cases inx <;>
    (dsimp only [stringWriter_write, WResult.andThen, TableKind.into_sql];
     try simp only [reduceIte]
     try rw [if_neg Bool.false_ne_true]
     try dsimp only
     rw [fields_loop_string (l := fields) fields.length 0 (by simp)]
     try dsimp only
     simp [TableDefn.sql_text, utf8ByteSize_append, utf8ByteSize_nil, String.append_assoc,
       -String.reduceAppend];
     omega)


theorem tableDefn_into_sql_chunks {ε : Type} (t : TableDefn) (c : List String) :
    TableDefn.into_sql (ChunkWriter ε) t c = .ok (c ++ t.chunk_list) t.sql_text.utf8ByteSize := by
  obtain ⟨fields, name, inx, kind⟩ := t
  rw [TableDefn.into_sql]
  rcases kind with _ | k <;> cases inx <;>
    (dsimp only [chunkWriter_write, WResult.andThen, TableKind.into_sql]
     try simp only [reduceIte]
     try rw [if_neg Bool.false_ne_true]
     try dsimp only
     rw [fields_loop_chunks (l := fields) fields.length 0 (by simp)]
     try dsimp only
     simp [TableDefn.sql_text, TableDefn.chunk_list, utf8ByteSize_append, utf8ByteSize_nil,
       List.append_assoc, -String.reduceAppend]
     try omega)

theorem tableDefn_into_sql_bytes {ε : Type} (t : TableDefn) (bs : List UInt8) :
    TableDefn.into_sql (ByteWriter ε) t bs =
      .ok (bs ++ strBytes t.sql_text) t.sql_text.utf8ByteSize := by
  obtain ⟨fields, name, inx, kind⟩ := t
  rw [TableDefn.into_sql]
  rcases kind with _ | k <;> cases inx <;>
    (simp only [byteWriter_write, WResult.andThen, TableKind.into_sql]
     try simp only [reduceIte]
     try rw [if_neg Bool.false_ne_true]
     try dsimp only
     rw [fields_loop_bytes (l := fields) fields.length 0 (by simp)]
     try dsimp only
     simp [TableDefn.sql_text, strBytes_append, strBytes_nil, utf8ByteSize_append,
       utf8ByteSize_nil, List.append_assoc, -String.reduceAppend]
     try omega)


/-!
Supporting lemmas about the special tokens and chunk counts.
-/

theorem empty_append_str (s : String) : "" ++ s = s := by
  obtain ⟨l⟩ := s
  rfl

theorem append_paren_getLast (a : String) : (a ++ ")").data.getLast? = some ')' := by
  rw [String.data_append]
  rw [show (")" : String).data = [')'] from rfl]
  exact List.getLast?_concat _

theorem data_type_ne_null (f : Field) :
    f.data_type ≠ "NULL" ∧ f.data_type ≠ "NOT NULL" ∧ f.data_type ≠ ",\n\t" := by
  cases f with
  | Char n =>
    refine ⟨?_, ?_, ?_⟩ <;> intro h <;> rw [Field.data_type] at h <;>
      (have h2 := congrArg (fun s => s.data.getLast?) h
       dsimp only at h2
       rw [append_paren_getLast] at h2
       exact absurd h2 (by decide))
  | Bit n =>
    refine ⟨?_, ?_, ?_⟩ <;> intro h <;> rw [Field.data_type] at h <;>
      (have h2 := congrArg (fun s => s.data.getLast?) h
       dsimp only at h2
       rw [append_paren_getLast] at h2
       exact absurd h2 (by decide))
  | VarChar => refine ⟨by decide, by decide, by decide⟩
  | Text => refine ⟨by decide, by decide, by decide⟩
  | Serial => refine ⟨by decide, by decide, by decide⟩
  | BigInt => refine ⟨by decide, by decide, by decide⟩
  | BigSerial => refine ⟨by decide, by decide, by decide⟩
  | Boolean => refine ⟨by decide, by decide, by decide⟩

theorem sep_not_mem_chunk_list (tf : TableField) (h : tf.options.name ≠ ",\n\t") :
    ",\n\t" ∉ tf.chunk_list := by
  obtain ⟨⟨name, pk, uq, nl⟩, kind⟩ := tf
  have hd := (data_type_ne_null kind).2.2
  intro hmem
  rcases nl with _ | b
  · cases pk <;> cases uq <;>
      simp [TableField.chunk_list, Ne.symm h, Ne.symm hd] at hmem
  · cases b <;> cases pk <;> cases uq <;>
      simp [TableField.chunk_list, Ne.symm h, Ne.symm hd] at hmem

theorem fields_chunks_sep_count (l : List TableField)
    (h : ∀ tf ∈ l, tf.options.name ≠ ",\n\t") :
    (fields_chunks l).count ",\n\t" = l.length - 1 := by
  induction l with
  | nil => simp [fields_chunks]
  | cons tf rest ih =>
    have h0 := sep_not_mem_chunk_list tf (h tf (by simp))
    cases rest with
    | nil => simp [fields_chunks, List.count_eq_zero_of_not_mem h0]
    | cons tf2 rest2 =>
      rw [show fields_chunks (tf :: tf2 :: rest2) =
            tf.chunk_list ++ [",\n\t"] ++ fields_chunks (tf2 :: rest2) from rfl]
      rw [List.count_append, List.count_append, List.count_eq_zero_of_not_mem h0]
      rw [ih (fun tf3 hm => h tf3 (by simp [hm]))]
      simp
      omega

theorem tf_emitted_chunks_eq (tf : TableField) : tf.emitted_chunks = tf.chunk_list := by
  simp [TableField.emitted_chunks, tableField_into_sql_chunks]

theorem emitted_chunks_eq (t : TableDefn) : t.emitted_chunks = t.chunk_list := by
  simp [TableDefn.emitted_chunks, tableDefn_into_sql_chunks]

theorem chunk_sizes_sum (tf : TableField) :
    (tf.chunk_list.map String.utf8ByteSize).sum = tf.sql_text.utf8ByteSize := by
  obtain ⟨⟨name, pk, uq, nl⟩, kind⟩ := tf
  rcases nl with _ | b
  · cases pk <;> cases uq <;>
      (simp [TableField.chunk_list, TableField.sql_text, utf8ByteSize_append, utf8ByteSize_nil,
        -String.reduceAppend]; omega)
  · cases b <;> cases pk <;> cases uq <;>
      (simp [TableField.chunk_list, TableField.sql_text, utf8ByteSize_append, utf8ByteSize_nil,
        -String.reduceAppend]; omega)

/-!
The claims.
-/

/-- C1: the claim says that when a field clause fails to render, the table
render fails as a whole with the child's error returned unchanged to the
caller.  The code instead calls unwrap on the per-field result inside the
for_each closure, so the first field-clause failure raises a panic and no
error value is ever returned: with a sink that accepts exactly three
writes (enough for the prefix of table t1) and then fails, the first write
of the single field clause fails and the render evaluates to the panicked
outcome, with the three prefix writes retained by the sink. -/
theorem C1_table_render_panics_on_field_failure :
    TableDefn.into_sql (FailAfter 3) t1 0 = .panicked 3 () := by decide

/-- C2: rendering the posts table fixture through the string-producing
convenience operation yields exactly the expected CREATE statement, byte
for byte, with the reported byte count 140 matching its length. -/
theorem C2_posts_renders_expected_sql :
    TableDefn.into_sql_str posts =
      some ("CREATE GLOBAL posts IF NOT EXISTS (\n\tid SERIAL PRIMARY KEY ,\n\ttitle CHAR(10) NOT NULL ,\n\tbody TEXT NOT NULL ,\n\tpublished BOOLEAN NOT NULL \n)",
        140) := by decide

/-- C3: every column-type variant renders exactly its canonical uppercase
token, with the numeric argument of the parameterized variants embedded
verbatim in decimal (including zero) and no surrounding whitespace. -/
theorem C3_column_type_tokens :
    (∀ n : Nat, Field.into_sql_str (.Char n) =
      some ("CHAR(" ++ Nat.repr n ++ ")", ("CHAR(" ++ Nat.repr n ++ ")").utf8ByteSize)) ∧
    Field.into_sql_str .VarChar = some ("VARCHAR", 7) ∧
    Field.into_sql_str .Text = some ("TEXT", 4) ∧
    Field.into_sql_str .Serial = some ("SERIAL", 6) ∧
    Field.into_sql_str .BigInt = some ("BIGINT", 6) ∧
    Field.into_sql_str .BigSerial = some ("BIGSERIAL", 9) ∧
    Field.into_sql_str .Boolean = some ("BOOLEAN", 7) ∧
    (∀ n : Nat, Field.into_sql_str (.Bit n) =
      some ("BIT(" ++ Nat.repr n ++ ")", ("BIT(" ++ Nat.repr n ++ ")").utf8ByteSize)) ∧
    Field.into_sql_str (.Char 0) = some ("CHAR(0)", 7) ∧
    Field.into_sql_str (.Bit 0) = some ("BIT(0)", 6) := by
  refine ⟨?_, by decide, by decide, by decide, by decide, by decide, by decide, ?_,
    by decide, by decide⟩
  · intro n
    simp [Field.into_sql_str, field_into_sql_string, Field.data_type, empty_append_str]
  · intro n
    simp [Field.into_sql_str, field_into_sql_string, Field.data_type, empty_append_str]

/-- C4: the emitted chunk sequence of a field clause contains the
nullability tokens exactly according to the tri-state flag: no NULL and no
NOT NULL chunk when unspecified, exactly one NULL chunk (and no NOT NULL)
when true, exactly one NOT NULL chunk (and no NULL) when false; the
hypotheses record that the column name, being an identifier, is not itself
one of the two tokens. -/
theorem C4_nullability_clause_tristate (tf : TableField)
    (h1 : tf.options.name ≠ "NULL") (h2 : tf.options.name ≠ "NOT NULL") :
    match tf.options.null with
    | none =>
        tf.emitted_chunks.count "NULL" = 0 ∧ tf.emitted_chunks.count "NOT NULL" = 0
    | some true =>
        tf.emitted_chunks.count "NULL" = 1 ∧ tf.emitted_chunks.count "NOT NULL" = 0
    | some false =>
        tf.emitted_chunks.count "NOT NULL" = 1 ∧ tf.emitted_chunks.count "NULL" = 0 := by
  have hd1 := (data_type_ne_null tf.kind).1
  have hd2 := (data_type_ne_null tf.kind).2.1
  rw [tf_emitted_chunks_eq]
  obtain ⟨⟨name, pk, uq, nl⟩, kind⟩ := tf
  rcases nl with _ | b
  · dsimp only
    cases pk <;> cases uq <;>
      (constructor <;>
        simp [TableField.chunk_list, List.count_append, List.count_cons, List.count_nil,
          Ne.symm h1, Ne.symm h2, Ne.symm hd1, Ne.symm hd2])
  · cases b <;> dsimp only <;> cases pk <;> cases uq <;>
      (constructor <;>
        simp [TableField.chunk_list, List.count_append, List.count_cons, List.count_nil,
          Ne.symm h1, Ne.symm h2, Ne.symm hd1, Ne.symm hd2])

/-- Witness for C4: the title field of the posts fixture has nullable set
to false and its rendered clause carries exactly one NOT NULL chunk and no
NULL chunk. -/
theorem C4_nullability_clause_tristate_witness :
    title_field.emitted_chunks.count "NOT NULL" = 1 ∧
    title_field.emitted_chunks.count "NULL" = 0 :=
  C4_nullability_clause_tristate title_field (by decide) (by decide)

/-- C5: the field renderer hands the sink, in order, the name, a space,
the column-type token, a space, then the optional nullability clause,
PRIMARY KEY clause and UNIQUE clause, each followed by its own single
trailing space chunk, and reports the total byte count of everything
written. -/
theorem C5_field_clause_order_and_count (tf : TableField) :
    TableField.into_sql (ChunkWriter Unit) tf [] =
      .ok ([tf.options.name, " ", tf.kind.data_type, " "] ++
        (match tf.options.null with
          | some b => [if b then "NULL" else "NOT NULL", " "]
          | none => []) ++
        (if tf.options.primary_key then ["PRIMARY KEY", " "] else []) ++
        (if tf.options.unique then ["UNIQUE", " "] else []))
        ((tf.chunk_list.map String.utf8ByteSize).sum) := by
  rw [tableField_into_sql_chunks, chunk_sizes_sum]
  rw [show ([] : List String) ++ tf.chunk_list = tf.chunk_list from by simp]
  rfl

/-- C6: the emitted chunks of a table render contain the comma-newline-tab
separator exactly fields-minus-one times (Nat subtraction, so zero for a
single-field or empty table); the hypotheses record that the table name
and the field names, being identifiers, are not themselves the separator
sequence. -/
theorem C6_separator_count (t : TableDefn)
    (hn : t.options.name ≠ ",\n\t")
    (h : ∀ tf ∈ t.fields, tf.options.name ≠ ",\n\t") :
    (TableDefn.emitted_chunks t).count ",\n\t" = t.fields.length - 1 := by
  rw [emitted_chunks_eq]
  obtain ⟨fields, name, inx, kind⟩ := t
  rw [TableDefn.chunk_list]
  rcases kind with _ | k
  · cases inx <;>
      simp [List.count_append, List.count_cons, fields_chunks_sep_count fields h, Ne.symm hn]
  · cases k <;> cases inx <;>
      simp [List.count_append, List.count_cons, fields_chunks_sep_count fields h, Ne.symm hn,
        to_uppercase, TableKind.as_ref]

/-- Witness for C6: the four-field posts fixture emits exactly three
separators. -/
theorem C6_separator_count_witness :
    (TableDefn.emitted_chunks posts).count ",\n\t" = posts.fields.length - 1 :=
  C6_separator_count posts (by decide) (by decide)

/-- C7: for each of the three renderable kinds, the byte count reported by
a successful render equals the UTF-8 byte length of the text the
string-producing convenience operation yields. -/
theorem C7_byte_count_equals_text_length :
    (∀ (f : Field) (s : String) (n : Nat),
      Field.into_sql_str f = some (s, n) → n = s.utf8ByteSize) ∧
    (∀ (tf : TableField) (s : String) (n : Nat),
      TableField.into_sql_str tf = some (s, n) → n = s.utf8ByteSize) ∧
    (∀ (t : TableDefn) (s : String) (n : Nat),
      TableDefn.into_sql_str t = some (s, n) → n = s.utf8ByteSize) := by
  refine ⟨?_, ?_, ?_⟩
  · intro f s n h
    simp only [Field.into_sql_str, field_into_sql_string, Option.some.injEq, Prod.mk.injEq] at h
    obtain ⟨hs, hn⟩ := h
    subst hs
    subst hn
    simp [utf8ByteSize_append, utf8ByteSize_nil]
  · intro tf s n h
    simp only [TableField.into_sql_str, tableField_into_sql_string, Option.some.injEq,
      Prod.mk.injEq] at h
    obtain ⟨hs, hn⟩ := h
    subst hs
    subst hn
    simp [utf8ByteSize_append, utf8ByteSize_nil]
  · intro t s n h
    simp only [TableDefn.into_sql_str, tableDefn_into_sql_string, Option.some.injEq,
      Prod.mk.injEq] at h
    obtain ⟨hs, hn⟩ := h
    subst hs
    subst hn
    simp [utf8ByteSize_append, utf8ByteSize_nil]

/-- Witness for C7: the posts fixture renders with reported count 140,
which is the UTF-8 byte length of the produced statement. -/
theorem C7_byte_count_equals_text_length_witness :
    140 = ("CREATE GLOBAL posts IF NOT EXISTS (\n\tid SERIAL PRIMARY KEY ,\n\ttitle CHAR(10) NOT NULL ,\n\tbody TEXT NOT NULL ,\n\tpublished BOOLEAN NOT NULL \n)" : String).utf8ByteSize :=
  C7_byte_count_equals_text_length.2.2 posts
    "CREATE GLOBAL posts IF NOT EXISTS (\n\tid SERIAL PRIMARY KEY ,\n\ttitle CHAR(10) NOT NULL ,\n\tbody TEXT NOT NULL ,\n\tpublished BOOLEAN NOT NULL \n)"
    140 (by decide)

/-- C8: a table without a kind tag emits the table name chunk immediately
after the CREATE chunk, while a present kind tag is emitted as its fully
uppercased variant name followed by a single space chunk before the name;
uppercasing sends Global to GLOBAL and Local to LOCAL. -/
theorem C8_kind_rendering (t : TableDefn) :
    (match t.options.kind with
      | none => ∃ rest, TableDefn.emitted_chunks t = "CREATE " :: t.options.name :: rest
      | some k => ∃ rest, TableDefn.emitted_chunks t =
          "CREATE " :: to_uppercase k.as_ref :: " " :: t.options.name :: rest) ∧
    to_uppercase TableKind.Global.as_ref = "GLOBAL" ∧
    to_uppercase TableKind.Local.as_ref = "LOCAL" := by
  refine ⟨?_, by decide, by decide⟩
  obtain ⟨fields, name, inx, kind⟩ := t
  rcases kind with _ | k
  · dsimp only
    rw [emitted_chunks_eq]
    exact ⟨(if inx then [" IF NOT EXISTS"] else []) ++ [" (\n\t"] ++ fields_chunks fields ++
      ["\n)"], by simp [TableDefn.chunk_list]⟩
  · dsimp only
    rw [emitted_chunks_eq]
    exact ⟨(if inx then [" IF NOT EXISTS"] else []) ++ [" (\n\t"] ++ fields_chunks fields ++
      ["\n)"], by simp [TableDefn.chunk_list]⟩

/-- C9: a successful render of any of the three renderable kinds into the
in-memory byte sink accumulates exactly the UTF-8 encoding of some string,
so converting the accumulated bytes back to text cannot fail and the
invalid-text branch of into_sql_str is unreachable. -/
theorem C9_sink_bytes_always_utf8 :
    (∀ f : Field, ∃ (u : String) (n : Nat),
      Field.into_sql (ByteWriter Unit) f [] = .ok (strBytes u) n) ∧
    (∀ tf : TableField, ∃ (u : String) (n : Nat),
      TableField.into_sql (ByteWriter Unit) tf [] = .ok (strBytes u) n) ∧
    (∀ t : TableDefn, ∃ (u : String) (n : Nat),
      TableDefn.into_sql (ByteWriter Unit) t [] = .ok (strBytes u) n) := by
  refine ⟨?_, ?_, ?_⟩
  · intro f
    exact ⟨f.data_type, f.data_type.utf8ByteSize, by rw [field_into_sql_bytes]; simp⟩
  · intro tf
    exact ⟨tf.sql_text, tf.sql_text.utf8ByteSize, by rw [tableField_into_sql_bytes]; simp⟩
  · intro t
    exact ⟨t.sql_text, t.sql_text.utf8ByteSize, by rw [tableDefn_into_sql_bytes]; simp⟩

/-- C10: a table with no fields renders successfully (no panic, no error)
to exactly the statement prefix followed by the opening punctuation and
then immediately the closing punctuation, with nothing in between. -/
theorem C10_empty_table_render (t : TableDefn) (h : t.fields = []) :
    TableDefn.into_sql_str t =
      (let header := "CREATE " ++
        (match t.options.kind with
          | some k => to_uppercase k.as_ref ++ " "
          | none => "") ++
        t.options.name ++
        (if t.options.if_not_exists then " IF NOT EXISTS" else "");
      some (header ++ " (\n\t" ++ "\n)", (header ++ " (\n\t" ++ "\n)").utf8ByteSize)) := by
  obtain ⟨fields, name, inx, kind⟩ := t
  simp only at h
  subst h
  simp only [TableDefn.into_sql_str, tableDefn_into_sql_string]
  simp [TableDefn.sql_text, join_fields, String.append_assoc, utf8ByteSize_append,
    utf8ByteSize_nil, -String.reduceAppend]

/-- Witness for C10: the concrete empty-field table renders to its prefix
plus the empty body punctuation, 17 bytes. -/
theorem C10_empty_table_render_witness :
    TableDefn.into_sql_str no_fields_table = some ("CREATE bare (\n\t\n)", 17) := by
  rw [C10_empty_table_render no_fields_table rfl]
  decide

end Ross
